import Mathlib

/-!
# Verification of the interpreters-comparison stack VM

Shallow embedding of `src/switched.c` and `src/threaded.c`, the two
dispatch strategies of the interpreters-comparison virtual machine.

The shared header `common.h` is not part of the source tree, but every
fact the embedding needs about it is recoverable from the two C files:
the opcode numbering is fixed by the `service_routines` table of
`threaded.c` (index = enum value: Break=0, Nop=1, Halt=2, Push=3,
Print=4, Jne=5, Swap=6, Dup=7, Je=8, Inc=9, Add=10, Sub=11, Mul=12,
Rand=13, Dec=14, Drop=15, Over=16, Mod=17, Jump=18), program memory is
an array of `PROGRAM_SIZE` 32-bit words (modelled as a `List Nat`, with
`pmem.length` playing the role of `PROGRAM_SIZE`), and the operand
stack has `STACK_CAPACITY` slots (modelled as the parameter `cap`).
Machine integers are modelled as `Nat` with explicit reduction modulo
`2 ^ 32`; the C `rand()` stream is modelled as an externally supplied
list of values consumed left to right; every `printf` of the engine is
recorded as an `Event` in the order it is produced.
-/

/-- `UINT32_MOD = 2 ^ 32`, the modulus of the 32-bit machine words. -/
def UINT32_MOD : Nat := 4294967296

/-- Truncate to a 32-bit word, the effect of storing into `uint32_t`. -/
def toWord (n : Nat) : Nat := n % UINT32_MOD

/-- Reading a 32-bit word as a signed `int32_t` (the cast performed by
`decode` on the immediate operand). -/
def toInt32 (w : Nat) : Int :=
  if w < 2147483648 then (w : Int) else (w : Int) - 4294967296

/-- The opcode values of the instruction set, fixed by the
`service_routines` table of `threaded.c`. -/
def Instr_Break : Nat := 0

def Instr_Nop : Nat := 1

def Instr_Halt : Nat := 2

def Instr_Push : Nat := 3

def Instr_Print : Nat := 4

def Instr_JNE : Nat := 5

def Instr_Swap : Nat := 6

def Instr_Dup : Nat := 7

def Instr_JE : Nat := 8

def Instr_Inc : Nat := 9

def Instr_Add : Nat := 10

def Instr_Sub : Nat := 11

def Instr_Mul : Nat := 12

def Instr_Rand : Nat := 13

def Instr_Dec : Nat := 14

def Instr_Drop : Nat := 15

def Instr_Over : Nat := 16

def Instr_Mod : Nat := 17

def Instr_Jump : Nat := 18

/-- The run state of the CPU (`cpu_state_t`). -/
inductive CpuSt where
  | Running
  | Halted
  | Break
deriving DecidableEq, Repr

/-- One line of console output of the engine: either a diagnostic
(`printf` of an error message) or the value printed by the `Print`
instruction. -/
inductive Event where
  | diag (msg : String)
  | print (v : Nat)
deriving DecidableEq, Repr

/-- The machine state `cpu_t`: program counter (`uint32_t`), stack
pointer (`int32_t`, `-1` = empty), run state, executed-step counter,
the operand stack (array of `STACK_CAPACITY` words), the program memory
(array of `PROGRAM_SIZE` words), the model of the `rand()` stream, and
the accumulated console output. -/
structure Cpu where
  pc : Nat
  sp : Int
  state : CpuSt
  steps : Nat
  stack : List Nat
  pmem : List Nat
  rands : List Nat
  out : List Event
deriving DecidableEq, Repr

/-- The result of `decode`: opcode, consumed length and the raw
immediate word (`{0}`-initialised, hence `0` when absent). -/
structure Decoded where
  opcode : Nat
  length : Nat
  immediate : Nat
deriving DecidableEq, Repr

/-- `fetch_checked` of both C files: out-of-bounds `pc` prints a
diagnostic, sets `state = Cpu_Break` and returns `Instr_Break`;
otherwise the word at `pc` is read. -/
def fetch_checked (c : Cpu) : Nat × Cpu :=
  if c.pc < c.pmem.length then
    (c.pmem.getD c.pc 0, c)
  else
    (Instr_Break,
     { c with state := .Break, out := c.out ++ [.diag "PC out of bounds"] })

/-- The one-word opcodes of the `decode` switch. -/
def opLen1 (r : Nat) : Bool :=
  r = Instr_Nop || r = Instr_Halt || r = Instr_Print || r = Instr_Swap ||
  r = Instr_Dup || r = Instr_Inc || r = Instr_Add || r = Instr_Sub ||
  r = Instr_Mul || r = Instr_Rand || r = Instr_Dec || r = Instr_Drop ||
  r = Instr_Over || r = Instr_Mod

/-- The two-word (immediate-bearing) opcodes of the `decode` switch. -/
def opLen2 (r : Nat) : Bool :=
  r = Instr_Push || r = Instr_JNE || r = Instr_JE || r = Instr_Jump

/-- `decode` of both C files.  A truncated two-word instruction prints a
diagnostic and is downgraded to a one-word `Break` without touching
`state`; `Instr_Break` and every undefined opcode decode as a one-word
`Break`. -/
def decode (raw : Nat) (c : Cpu) : Decoded × Cpu :=
  if opLen1 raw then
    ({ opcode := raw, length := 1, immediate := 0 }, c)
  else if opLen2 raw then
    if ¬ (c.pc + 1 < c.pmem.length) then
      ({ opcode := Instr_Break, length := 1, immediate := 0 },
       { c with out := c.out ++ [.diag "PC+1 out of bounds"] })
    else
      ({ opcode := raw, length := 2, immediate := c.pmem.getD (c.pc + 1) 0 }, c)
  else
    ({ opcode := Instr_Break, length := 1, immediate := 0 }, c)

/-- `push` of both C files: at `sp >= STACK_CAPACITY-1` it prints a
diagnostic, sets `Break` and discards the value; otherwise it stores at
`++sp`. -/
def push (cap : Nat) (c : Cpu) (v : Nat) : Cpu :=
  if (cap : Int) - 1 ≤ c.sp then
    { c with state := .Break, out := c.out ++ [.diag "Stack overflow"] }
  else
    { c with sp := c.sp + 1, stack := c.stack.set (c.sp + 1).toNat v }

/-- `pop` of both C files: at `sp < 0` it prints a diagnostic, sets
`Break` and returns the sentinel `0`; otherwise it reads `stack[sp--]`. -/
def pop (c : Cpu) : Nat × Cpu :=
  if c.sp < 0 then
    (0, { c with state := .Break, out := c.out ++ [.diag "Stack underflow"] })
  else
    (c.stack.getD c.sp.toNat 0, { c with sp := c.sp - 1 })

/-- The body of one instruction handler, shared verbatim between the
big `switch` of `switched.c` and the service routines of `threaded.c`.
The boolean is `true` exactly when the C body exits through
`BAIL_ON_ERROR()` or the zero-divisor `break` of `Mod` - the paths on
which `switched.c` merely leaves the `switch` (and still advances
pc/steps) while `threaded.c` leaves the whole dispatch loop (skipping
`ADVANCE_PC()`). -/
def execInstr (cap : Nat) (d : Decoded) (c : Cpu) : Cpu × Bool :=
  match d.opcode with
  | 1 =>
    (c, false)
  | 2 =>
    ({ c with state := .Halted }, false)
  | 3 =>
    (push cap c d.immediate, false)
  | 4 =>
    if (pop c).2.state ≠ .Running then ((pop c).2, true)
    else ({ (pop c).2 with out := (pop c).2.out ++ [.print (pop c).1] }, false)
  | 6 =>
    if (pop (pop c).2).2.state ≠ .Running then ((pop (pop c).2).2, true)
    else (push cap (push cap (pop (pop c).2).2 (pop c).1) (pop (pop c).2).1, false)
  | 7 =>
    if (pop c).2.state ≠ .Running then ((pop c).2, true)
    else (push cap (push cap (pop c).2 (pop c).1) (pop c).1, false)
  | 16 =>
    if (pop (pop c).2).2.state ≠ .Running then ((pop (pop c).2).2, true)
    else
      (push cap (push cap (push cap (pop (pop c).2).2 (pop (pop c).2).1) (pop c).1)
        (pop (pop c).2).1, false)
  | 9 =>
    if (pop c).2.state ≠ .Running then ((pop c).2, true)
    else (push cap (pop c).2 (toWord ((pop c).1 + 1)), false)
  | 10 =>
    if (pop (pop c).2).2.state ≠ .Running then ((pop (pop c).2).2, true)
    else (push cap (pop (pop c).2).2 (toWord ((pop c).1 + (pop (pop c).2).1)), false)
  | 11 =>
    if (pop (pop c).2).2.state ≠ .Running then ((pop (pop c).2).2, true)
    else
      (push cap (pop (pop c).2).2
        (toWord ((pop c).1 + (UINT32_MOD - (pop (pop c).2).1))), false)
  | 17 =>
    if (pop (pop c).2).2.state ≠ .Running then ((pop (pop c).2).2, true)
    else if (pop (pop c).2).1 = 0 then
      ({ (pop (pop c).2).2 with state := .Break }, true)
    else (push cap (pop (pop c).2).2 ((pop c).1 % (pop (pop c).2).1), false)
  | 12 =>
    if (pop (pop c).2).2.state ≠ .Running then ((pop (pop c).2).2, true)
    else (push cap (pop (pop c).2).2 (toWord ((pop c).1 * (pop (pop c).2).1)), false)
  | 13 =>
    (push cap { c with rands := c.rands.tail } (toWord (c.rands.headD 0)), false)
  | 14 =>
    if (pop c).2.state ≠ .Running then ((pop c).2, true)
    else (push cap (pop c).2 (toWord ((pop c).1 + (UINT32_MOD - 1))), false)
  | 15 =>
    ((pop c).2, false)
  | 8 =>
    if (pop c).2.state ≠ .Running then ((pop c).2, true)
    else if (pop c).1 = 0 then
      ({ (pop c).2 with pc := ((pop c).2.pc + d.immediate) % UINT32_MOD }, false)
    else ((pop c).2, false)
  | 5 =>
    if (pop c).2.state ≠ .Running then ((pop c).2, true)
    else if (pop c).1 ≠ 0 then
      ({ (pop c).2 with pc := ((pop c).2.pc + d.immediate) % UINT32_MOD }, false)
    else ((pop c).2, false)
  | 18 =>
    ({ c with pc := (c.pc + d.immediate) % UINT32_MOD }, false)
  | _ =>
    ({ c with state := .Break }, false)

/-- The `ADVANCE` bookkeeping shared by both strategies:
`cpu.pc += decoded.length; cpu.steps++`. -/
def advance (d : Decoded) (c : Cpu) : Cpu :=
  { c with pc := (c.pc + d.length) % UINT32_MOD, steps := c.steps + 1 }

/-- The `while` loop of `switched.c::main`.  The fuel argument realises
the bound `steps < steplimit`: the loop is entered only while
`state == Cpu_Running` and fuel (= `steplimit - steps`) is positive;
`BAIL_ON_ERROR()` directly after `fetch_checked` leaves the loop before
decoding, and every dispatched handler is followed by the pc/steps
advance regardless of faults inside the handler body. -/
def switchedGo (cap : Nat) : Nat → Cpu → Cpu
  | 0, c => c
  | fuel + 1, c =>
    if c.state ≠ .Running then c
    else if (fetch_checked c).2.state ≠ .Running then (fetch_checked c).2
    else
      switchedGo cap fuel
        (advance (decode (fetch_checked c).1 (fetch_checked c).2).1
          (execInstr cap (decode (fetch_checked c).1 (fetch_checked c).2).1
            (decode (fetch_checked c).1 (fetch_checked c).2).2).1)

/-- A full run of `switched.c::main` on a given program, `rand()`
stream and step limit, from the initial state
`pc=0, sp=-1, state=Running, steps=0, stack={0}`. -/
def initCpu (cap : Nat) (prog rands : List Nat) : Cpu :=
  { pc := 0, sp := -1, state := .Running, steps := 0,
    stack := List.replicate cap 0, pmem := prog, rands := rands, out := [] }

def runSwitched (cap : Nat) (prog rands : List Nat) (limit : Nat) : Cpu :=
  switchedGo cap limit (initCpu cap prog rands)

/-- One dispatch of `threaded.c`: `fetch_decode`, the service routine of
the decoded opcode, and - unless the routine left the loop through
`BAIL_ON_ERROR()` or the zero-divisor `break` - the `ADVANCE_PC()`
bookkeeping with its `state != Cpu_Running || steps >= steplimit` exit
test.  The boolean is `true` when the dispatch loop stops here. -/
def threadedIter (cap limit : Nat) (c : Cpu) : Cpu × Bool :=
  if (execInstr cap (decode (fetch_checked c).1 (fetch_checked c).2).1
      (decode (fetch_checked c).1 (fetch_checked c).2).2).2 then
    ((execInstr cap (decode (fetch_checked c).1 (fetch_checked c).2).1
      (decode (fetch_checked c).1 (fetch_checked c).2).2).1, true)
  else if (advance (decode (fetch_checked c).1 (fetch_checked c).2).1
      (execInstr cap (decode (fetch_checked c).1 (fetch_checked c).2).1
        (decode (fetch_checked c).1 (fetch_checked c).2).2).1).state ≠ .Running then
    (advance (decode (fetch_checked c).1 (fetch_checked c).2).1
      (execInstr cap (decode (fetch_checked c).1 (fetch_checked c).2).1
        (decode (fetch_checked c).1 (fetch_checked c).2).2).1, true)
  else if limit ≤ (advance (decode (fetch_checked c).1 (fetch_checked c).2).1
      (execInstr cap (decode (fetch_checked c).1 (fetch_checked c).2).1
        (decode (fetch_checked c).1 (fetch_checked c).2).2).1).steps then
    (advance (decode (fetch_checked c).1 (fetch_checked c).2).1
      (execInstr cap (decode (fetch_checked c).1 (fetch_checked c).2).1
        (decode (fetch_checked c).1 (fetch_checked c).2).2).1, true)
  else
    (advance (decode (fetch_checked c).1 (fetch_checked c).2).1
      (execInstr cap (decode (fetch_checked c).1 (fetch_checked c).2).1
        (decode (fetch_checked c).1 (fetch_checked c).2).2).1, false)

/-- The dispatch loop of `threaded.c::main`.  The first instruction is
fetched, decoded and dispatched before any step-limit test (the code
preceding the `do` loop); afterwards each `ADVANCE_PC()` decides
whether to dispatch again. -/
def threadedGo (cap limit : Nat) : Nat → Cpu → Cpu
  | 0, c => (threadedIter cap limit c).1
  | fuel + 1, c =>
    let r := threadedIter cap limit c
    if r.2 then r.1 else threadedGo cap limit fuel r.1

/-- A full run of `threaded.c::main` on a given program, `rand()`
stream and step limit. -/
def runThreaded (cap : Nat) (prog rands : List Nat) (limit : Nat) : Cpu :=
  threadedGo cap limit limit (initCpu cap prog rands)

/-- The exit classification computed by the `return` of both `main`s:
`0` on `Halted` or on a `Running` state whose step budget is exactly
exhausted, `1` otherwise. -/
def exitCode (limit : Nat) (c : Cpu) : Nat :=
  if c.state = .Halted ∨ (c.state = .Running ∧ c.steps = limit) then 0 else 1

/-- The values printed by `Print` instructions, in order. -/
def printedValues (out : List Event) : List Nat :=
  out.filterMap fun e =>
    match e with
    | .print v => some v
    | .diag _ => none

/-- The number of diagnostic lines in the output. -/
def diagCount (out : List Event) : Nat :=
  (out.filter fun e =>
    match e with
    | .diag _ => true
    | .print _ => false).length

/-- The stack contents as reported after the run: from `stack[sp]` down
to `stack[0]`, empty when `sp = -1`. -/
def stackContents (c : Cpu) : List Nat :=
  if c.sp < 0 then []
  else ((List.range (c.sp.toNat + 1)).map fun i => c.stack.getD i 0).reverse

/-! ## Basic lemmas about the primitives -/

theorem switchedGo_notRunning (cap fuel : Nat) (c : Cpu)
    (h : c.state ≠ .Running) : switchedGo cap fuel c = c := by
  cases fuel with
  | zero => rfl
  | succ f => simp [switchedGo, h]

theorem pop_state (c : Cpu) :
    (pop c).2.state = c.state ∨ (pop c).2.state = .Break := by
  unfold pop
  split <;> simp

theorem pop_steps (c : Cpu) : (pop c).2.steps = c.steps := by
  unfold pop
  split <;> simp

theorem push_steps (cap : Nat) (c : Cpu) (v : Nat) :
    (push cap c v).steps = c.steps := by
  unfold push
  split <;> simp

theorem decode_state (raw : Nat) (c : Cpu) :
    (decode raw c).2.state = c.state := by
  unfold decode
  split
  · simp
  · split
    · split <;> simp
    · simp

theorem decode_steps (raw : Nat) (c : Cpu) :
    (decode raw c).2.steps = c.steps := by
  unfold decode
  split
  · simp
  · split
    · split <;> simp
    · simp

theorem advance_state (d : Decoded) (c : Cpu) :
    (advance d c).state = c.state := by
  simp [advance]

theorem advance_steps (d : Decoded) (c : Cpu) :
    (advance d c).steps = c.steps + 1 := by
  simp [advance]

theorem exec_steps (cap : Nat) (d : Decoded) (c : Cpu) :
    (execInstr cap d c).1.steps = c.steps := by
  unfold execInstr
  split <;>
    simp_all [push_steps, pop_steps] <;>
    split_ifs <;>
    simp_all [push_steps, pop_steps]

theorem exec_early_break (cap : Nat) (d : Decoded) (c : Cpu)
    (hst : c.state = .Running) (he : (execInstr cap d c).2 = true) :
    (execInstr cap d c).1.state = .Break := by
  unfold execInstr at he ⊢
  split at he <;> simp_all <;> split_ifs at he ⊢ <;> simp_all
  all_goals {
    rename_i hne
    first
    | (rcases pop_state c with h | h <;> simp_all)
    | (rcases pop_state (pop c).2 with h | h
       · rcases pop_state c with h2 | h2 <;> simp_all
       · simp_all)
  }

/-! ## Stack discipline -/

/-- The stack-pointer invariant of the spec: `-1 <= sp < STACK_CAPACITY`. -/
def StackOk (cap : Nat) (c : Cpu) : Prop :=
  -1 ≤ c.sp ∧ c.sp < (cap : Int)

instance (cap : Nat) (c : Cpu) : Decidable (StackOk cap c) := by
  unfold StackOk
  infer_instance

theorem stackOk_of_sp_eq (cap : Nat) (c c' : Cpu) (hsp : c'.sp = c.sp)
    (h : StackOk cap c) : StackOk cap c' := by
  unfold StackOk at *
  omega

theorem push_stackOk (cap : Nat) (c : Cpu) (v : Nat) (h : StackOk cap c) :
    StackOk cap (push cap c v) := by
  unfold push
  unfold StackOk at h ⊢
  split_ifs with h1 <;> simp <;> omega

theorem pop_stackOk (cap : Nat) (c : Cpu) (h : StackOk cap c) :
    StackOk cap (pop c).2 := by
  unfold pop
  unfold StackOk at h ⊢
  split_ifs with h1 <;> simp <;> omega

theorem exec_stackOk (cap : Nat) (d : Decoded) (c : Cpu) (h : StackOk cap c) :
    StackOk cap (execInstr cap d c).1 := by
  have h1 : StackOk cap (pop c).2 := pop_stackOk cap c h
  have h2 : StackOk cap (pop (pop c).2).2 := pop_stackOk cap _ h1
  unfold execInstr
  split
  · exact h
  · exact stackOk_of_sp_eq cap c _ rfl h
  · exact push_stackOk cap c _ h
  · split_ifs
    · exact h1
    · exact stackOk_of_sp_eq cap (pop c).2 _ rfl h1
  · split_ifs
    · exact h2
    · exact push_stackOk cap _ _ (push_stackOk cap _ _ h2)
  · split_ifs
    · exact h1
    · exact push_stackOk cap _ _ (push_stackOk cap _ _ h1)
  · split_ifs
    · exact h2
    · exact push_stackOk cap _ _ (push_stackOk cap _ _ (push_stackOk cap _ _ h2))
  · split_ifs
    · exact h1
    · exact push_stackOk cap _ _ h1
  · split_ifs
    · exact h2
    · exact push_stackOk cap _ _ h2
  · split_ifs
    · exact h2
    · exact push_stackOk cap _ _ h2
  · split_ifs
    · exact h2
    · exact stackOk_of_sp_eq cap (pop (pop c).2).2 _ rfl h2
    · exact push_stackOk cap _ _ h2
  · split_ifs
    · exact h2
    · exact push_stackOk cap _ _ h2
  · exact push_stackOk cap _ _ (stackOk_of_sp_eq cap c _ rfl h)
  · split_ifs
    · exact h1
    · exact push_stackOk cap _ _ h1
  · exact h1
  · split_ifs
    · exact h1
    · exact stackOk_of_sp_eq cap (pop c).2 _ rfl h1
    · exact h1
  · split_ifs
    · exact h1
    · exact stackOk_of_sp_eq cap (pop c).2 _ rfl h1
    · exact h1
  · exact stackOk_of_sp_eq cap c _ rfl h
  · exact stackOk_of_sp_eq cap c _ rfl h

theorem fetch_sp (c : Cpu) : (fetch_checked c).2.sp = c.sp := by
  unfold fetch_checked
  split <;> simp

theorem decode_sp (raw : Nat) (c : Cpu) : (decode raw c).2.sp = c.sp := by
  unfold decode
  split
  · simp
  · split
    · split <;> simp
    · simp

theorem advance_sp (d : Decoded) (c : Cpu) : (advance d c).sp = c.sp := by
  simp [advance]

theorem switchedGo_stackOk (cap : Nat) (fuel : Nat) (c : Cpu)
    (h : StackOk cap c) : StackOk cap (switchedGo cap fuel c) := by
  induction fuel generalizing c with
  | zero => exact h
  | succ f ih =>
    simp only [switchedGo]
    split_ifs
    · exact h
    · exact stackOk_of_sp_eq cap c _ (fetch_sp c) h
    · apply ih
      apply stackOk_of_sp_eq cap _ _ (advance_sp _ _)
      apply exec_stackOk
      apply stackOk_of_sp_eq cap _ _ (decode_sp _ _)
      exact stackOk_of_sp_eq cap c _ (fetch_sp c) h

theorem threadedIter_stackOk (cap limit : Nat) (c : Cpu)
    (h : StackOk cap c) : StackOk cap (threadedIter cap limit c).1 := by
  have hex : StackOk cap
      (execInstr cap (decode (fetch_checked c).1 (fetch_checked c).2).1
        (decode (fetch_checked c).1 (fetch_checked c).2).2).1 := by
    apply exec_stackOk
    apply stackOk_of_sp_eq cap _ _ (decode_sp _ _)
    exact stackOk_of_sp_eq cap c _ (fetch_sp c) h
  unfold threadedIter
  split_ifs <;> exact hex

theorem threadedGo_stackOk (cap limit fuel : Nat) (c : Cpu)
    (h : StackOk cap c) : StackOk cap (threadedGo cap limit fuel c) := by
  induction fuel generalizing c with
  | zero => exact threadedIter_stackOk cap limit c h
  | succ f ih =>
    simp only [threadedGo]
    split
    · exact threadedIter_stackOk cap limit c h
    · exact ih _ (threadedIter_stackOk cap limit c h)

/-! ## Lockstep equivalence of the two dispatch strategies -/

theorem lockstep (cap limit : Nat) :
    ∀ fuel c, c.state = .Running → c.steps + fuel = limit → 1 ≤ fuel →
      (switchedGo cap fuel c).state ≠ .Break →
      threadedGo cap limit fuel c = switchedGo cap fuel c := by
  intro fuel
  induction fuel with
  | zero =>
    intro c _ _ h3 _
    omega
  | succ f ih =>
    intro c h1 h2 _ h4
    by_cases hfc : c.pc < c.pmem.length
    · generalize hraw : c.pmem.getD c.pc 0 = raw
      have hf1 : (fetch_checked c).1 = raw := by
        unfold fetch_checked
        rw [if_pos hfc]
        exact hraw
      have hf2 : (fetch_checked c).2 = c := by
        unfold fetch_checked
        rw [if_pos hfc]
      have hsw : switchedGo cap (f + 1) c
          = switchedGo cap f
              (advance (decode raw c).1
                (execInstr cap (decode raw c).1 (decode raw c).2).1) := by
        simp only [switchedGo]
        rw [hf1, hf2, h1]
        simp
      have hc2st : (decode raw c).2.state = .Running := by
        rw [decode_state, h1]
      have hc2steps : (decode raw c).2.steps = c.steps :=
        decode_steps _ c
      by_cases he : (execInstr cap (decode raw c).1 (decode raw c).2).2 = true
      · -- the handler bailed out: the switched run ends in Break,
        -- contradicting the hypothesis
        exfalso
        apply h4
        have hb : (execInstr cap (decode raw c).1 (decode raw c).2).1.state
            = .Break := exec_early_break _ _ _ hc2st he
        rw [hsw, switchedGo_notRunning]
        · rw [advance_state, hb]
        · rw [advance_state, hb]
          simp
      · have hth : threadedGo cap limit (f + 1) c
            = if (threadedIter cap limit c).2 then (threadedIter cap limit c).1
              else threadedGo cap limit f (threadedIter cap limit c).1 := by
          simp only [threadedGo]
        have he' : (execInstr cap (decode raw c).1 (decode raw c).2).2
            = false := by
          simpa using he
        by_cases hs3 : (execInstr cap (decode raw c).1 (decode raw c).2).1.state
            = .Running
        · -- handler completed and left the machine running
          have hadv : (advance (decode raw c).1
              (execInstr cap (decode raw c).1 (decode raw c).2).1).state
              = .Running := by
            rw [advance_state, hs3]
          have hsteps : (advance (decode raw c).1
              (execInstr cap (decode raw c).1 (decode raw c).2).1).steps
              = c.steps + 1 := by
            rw [advance_steps, exec_steps, hc2steps]
          by_cases hf : f = 0
          · -- step budget exhausted exactly here
            subst hf
            have hit : threadedIter cap limit c
                = (advance (decode raw c).1
                    (execInstr cap (decode raw c).1 (decode raw c).2).1,
                   true) := by
              unfold threadedIter
              rw [hf1, hf2, he']
              rw [if_neg (by simp)]
              rw [if_neg (by rw [hadv]; simp)]
              rw [if_pos (by rw [hsteps]; omega)]
            rw [hth, hit, hsw]
            simp [switchedGo]
          · -- both loops continue in lockstep
            have hit : threadedIter cap limit c
                = (advance (decode raw c).1
                    (execInstr cap (decode raw c).1 (decode raw c).2).1,
                   false) := by
              unfold threadedIter
              rw [hf1, hf2, he']
              rw [if_neg (by simp)]
              rw [if_neg (by rw [hadv]; simp)]
              rw [if_neg (by rw [hsteps]; omega)]
            rw [hth, hit, hsw]
            simp only [Bool.false_eq_true, if_false]
            apply ih
            · exact hadv
            · rw [hsteps]
              omega
            · omega
            · rw [← hsw]
              exact h4
        · -- handler completed but stopped the machine (Halt, Break,
          -- overflow, Drop underflow): both loops stop with the same state
          have hadv : (advance (decode raw c).1
              (execInstr cap (decode raw c).1 (decode raw c).2).1).state
              ≠ .Running := by
            rw [advance_state]
            exact hs3
          have hit : threadedIter cap limit c
              = (advance (decode raw c).1
                  (execInstr cap (decode raw c).1 (decode raw c).2).1,
                 true) := by
            unfold threadedIter
            rw [hf1, hf2, he']
            rw [if_neg (by simp)]
            rw [if_pos hadv]
          rw [hth, hit, hsw, switchedGo_notRunning]
          · simp
          · exact hadv
    · -- fetch faults: the switched run ends in Break, contradicting
      -- the hypothesis
      exfalso
      apply h4
      have hf2 : (fetch_checked c).2
          = { c with state := .Break,
                     out := c.out ++ [.diag "PC out of bounds"] } := by
        unfold fetch_checked
        rw [if_neg hfc]
      simp only [switchedGo]
      rw [hf2, h1]
      simp

/-! ## Concrete programs from the claims -/

/-- The division scenario program of the spec: `Push 10, Push 0, Mod, Halt`. -/
def modScenarioProgram : List Nat :=
  [Instr_Push, 10, Instr_Push, 0, Instr_Mod, Instr_Halt]

/-- The factorial-style program of the spec: `Push 5, Push 1, Swap,
[loop: Swap, Over, Mul, Swap, Dec, Dup, JNE -8], Swap, Print, Halt`
(the immediate `-8` is stored as the 32-bit word `2^32 - 8`). -/
def factorialProgram : List Nat :=
  [Instr_Push, 5, Instr_Push, 1, Instr_Swap,
   Instr_Swap, Instr_Over, Instr_Mul, Instr_Swap, Instr_Dec, Instr_Dup,
   Instr_JNE, 4294967288,
   Instr_Swap, Instr_Print, Instr_Halt]

/-! ## Claim C1 -/

/-- Claim C1 is false as stated: at step limit `0` the switched
dispatcher executes no step while the threaded dispatcher fetches,
decodes and dispatches one full instruction before its first step-limit
test, so the final step counts and states differ on the one-instruction
program `Halt`. -/
theorem strategy_divergence_at_limit_zero :
    (runSwitched 4 [Instr_Halt] [] 0).steps = 0
    ∧ (runThreaded 4 [Instr_Halt] [] 0).steps = 1
    ∧ (runSwitched 4 [Instr_Halt] [] 0).state = .Running
    ∧ (runThreaded 4 [Instr_Halt] [] 0).state = .Halted := by
  decide

/-- Claim C1 (amended): cross-strategy equivalence holds for every
program, `rand()` stream and step limit of at least one whose
switched-dispatch run does not end in the Break state: the two
dispatchers then produce identical final machine states - in
particular identical printed output, identical pc, sp, stack contents
and state, and identical step counts. -/
theorem cross_strategy_equivalence (cap limit : Nat) (prog rands : List Nat)
    (hl : 1 ≤ limit)
    (hnb : (runSwitched cap prog rands limit).state ≠ .Break) :
    runThreaded cap prog rands limit = runSwitched cap prog rands limit := by
  unfold runThreaded runSwitched at *
  refine lockstep cap limit limit (initCpu cap prog rands) rfl ?_ hl hnb
  simp [initCpu]

/-- Witness for `cross_strategy_equivalence` at a concrete input. -/
theorem cross_strategy_equivalence_witness :
    1 ≤ 3 ∧ (runSwitched 4 [Instr_Halt] [] 3).state ≠ CpuSt.Break
    ∧ runThreaded 4 [Instr_Halt] [] 3 = runSwitched 4 [Instr_Halt] [] 3 :=
  ⟨by decide, by decide,
   cross_strategy_equivalence 4 3 [Instr_Halt] [] (by decide) (by decide)⟩

/-! ## Claim C2 -/

/-- Claim C2 is false as stated: `Push 10, Push 0, Mod, Halt` does not
fault.  `Mod` pops `a = 0` (the top) and `b = 10`, the zero test is on
the second-popped divisor `b = 10`, so `0 mod 10 = 0` is pushed and the
run halts after 4 steps with stack `[0]`. -/
theorem div_by_zero_scenario_refuted :
    (runSwitched 8 modScenarioProgram [] 100).state ≠ .Break
    ∧ (runSwitched 8 modScenarioProgram [] 100).steps ≠ 3
    ∧ stackContents (runSwitched 8 modScenarioProgram [] 100) ≠ [10] := by
  decide

/-- Claim C2 (amended): `Push 10, Push 0, Mod, Halt` terminates in
state=Halted with exactly 4 executed steps, no output, and final stack
`[0]`: the divisor of `Mod` is the second-popped value (here 10), so no
division-by-zero fault occurs and `0 mod 10 = 0` replaces the two
operands.  Both dispatch strategies agree on this run. -/
theorem push10_push0_mod_halt_behavior :
    (runSwitched 8 modScenarioProgram [] 100).state = .Halted
    ∧ (runSwitched 8 modScenarioProgram [] 100).steps = 4
    ∧ stackContents (runSwitched 8 modScenarioProgram [] 100) = [0]
    ∧ (runSwitched 8 modScenarioProgram [] 100).out = []
    ∧ runThreaded 8 modScenarioProgram [] 100
        = runSwitched 8 modScenarioProgram [] 100 := by
  decide

/-! ## Claim C9 -/

/-- Claim C9: the factorial-style program `Push 5, Push 1, Swap,
[loop: Swap, Over, Mul, Swap, Dec, Dup, JNE -8], Swap, Print, Halt`
prints the value `120` exactly once (the whole output is that single
line) and terminates in state=Halted. -/
theorem factorial_prints_120 :
    (runSwitched 8 factorialProgram [] 64).out = [Event.print 120]
    ∧ (runSwitched 8 factorialProgram [] 64).state = .Halted := by
  decide

/-! ## Claim C10 -/

/-- Claim C10 identifies a genuine bug in `threaded.c`: with step limit
`0` the threaded dispatcher executes one full instruction before its
first limit check, so the loop exits with `state = Running` and
`steps = 1 > 0`, contradicting the program's own
`assert(cpu.state != Cpu_Running || cpu.steps == steplimit)`. -/
theorem threaded_ignores_steplimit_zero :
    (runThreaded 8 [Instr_Nop, Instr_Halt] [] 0).state = .Running
    ∧ (runThreaded 8 [Instr_Nop, Instr_Halt] [] 0).steps = 1 := by
  decide

/-! ## Claim C3 -/

/-- Claim C3: for `Mod` executed with at least two values on the stack
(and a stack pointer within capacity), with `a` the first-popped (top)
value and `b` the second-popped value: if `b = 0` the machine enters
state=Break with both operands popped and nothing pushed (stack array
unchanged); otherwise `a mod b` replaces the two popped values and the
machine keeps running. -/
theorem mod_instruction_semantics (cap : Nat) (c : Cpu) (a b : Nat)
    (hst : c.state = .Running) (hsp : 1 ≤ c.sp) (hcap : c.sp < (cap : Int))
    (ha : c.stack.getD c.sp.toNat 0 = a)
    (hb : c.stack.getD (c.sp.toNat - 1) 0 = b) :
    (b = 0 →
      (execInstr cap ⟨Instr_Mod, 1, 0⟩ c).1
        = { c with sp := c.sp - 2, state := .Break })
    ∧ (b ≠ 0 →
      (execInstr cap ⟨Instr_Mod, 1, 0⟩ c).1
        = { c with sp := c.sp - 1,
                   stack := c.stack.set (c.sp.toNat - 1) (a % b) }) := by
  obtain ⟨pc, sp, st, steps, stk, pm, rnd, outl⟩ := c
  simp only at hst hsp hcap ha hb
  subst hst
  have h1 : ¬ sp < 0 := by omega
  have h2 : ¬ sp - 1 < 0 := by omega
  have h3 : (sp - 1).toNat = sp.toNat - 1 := by omega
  have h4 : ¬ ((cap : Int) - 1 ≤ sp - 1 - 1) := by omega
  have h5 : (sp - 1 - 1 + 1).toNat = sp.toNat - 1 := by omega
  constructor
  · intro hb0
    simp only [execInstr, Instr_Mod, pop, h1, if_false, h2]
    simp only [h3, ha, hb, hb0]
    simp [Cpu.mk.injEq]
    omega
  · intro hb0
    simp only [execInstr, Instr_Mod, pop, h1, if_false, h2]
    simp only [h3, ha, hb]
    simp only [push, h4, if_false]
    simp [Cpu.mk.injEq, hb0, h5]

/-- The concrete machine state used to witness `mod_instruction_semantics`:
two values on the stack, `a = 7` on top of `b = 3`. -/
def modWitnessCpu : Cpu :=
  { pc := 0, sp := 1, state := CpuSt.Running, steps := 0,
    stack := [3, 7, 0, 0], pmem := [], rands := [], out := [] }

/-- Witness for `mod_instruction_semantics` at a concrete input. -/
theorem mod_instruction_semantics_witness :
    (execInstr 4 ⟨Instr_Mod, 1, 0⟩ modWitnessCpu).1
      = { pc := 0, sp := 0, state := CpuSt.Running, steps := 0,
          stack := [1, 7, 0, 0], pmem := [], rands := [], out := [] } := by
  have h := (mod_instruction_semantics 4 modWitnessCpu 7 3 rfl (by decide)
      (by decide) (by decide) (by decide)).2 (by decide)
  rw [h]
  decide

/-! ## Claim C6 -/

/-- Claim C6: with `pc = P` holding a two-word `Jump` with raw immediate
word `w` (signed value `toInt32 w`), both words in bounds and the target
in the 32-bit range, one full step leaves `pc = P + toInt32 w + 2`; the
same net arithmetic applies to a taken `JE` and a taken `JNE`. -/
theorem jump_addressing (cap : Nat) (c : Cpu) (P w : Nat)
    (hst : c.state = .Running) (hpc : c.pc = P)
    (hb : P + 1 < c.pmem.length)
    (hw : c.pmem.getD (P + 1) 0 = w)
    (hlo : 0 ≤ (P : Int) + toInt32 w + 2)
    (hhi : (P : Int) + toInt32 w + 2 < 4294967296) :
    (c.pmem.getD P 0 = Instr_Jump →
       ((switchedGo cap 1 c).pc : Int) = (P : Int) + toInt32 w + 2)
    ∧ (c.pmem.getD P 0 = Instr_JE → 0 ≤ c.sp →
       c.stack.getD c.sp.toNat 0 = 0 →
       ((switchedGo cap 1 c).pc : Int) = (P : Int) + toInt32 w + 2)
    ∧ (c.pmem.getD P 0 = Instr_JNE → 0 ≤ c.sp →
       c.stack.getD c.sp.toNat 0 ≠ 0 →
       ((switchedGo cap 1 c).pc : Int) = (P : Int) + toInt32 w + 2) := by
  subst hpc
  have hplen : c.pc < c.pmem.length := by omega
  have hf1 : (fetch_checked c).1 = c.pmem.getD c.pc 0 := by
    unfold fetch_checked
    rw [if_pos hplen]
  have hf2 : (fetch_checked c).2 = c := by
    unfold fetch_checked
    rw [if_pos hplen]
  have key : ((((c.pc + w) % UINT32_MOD + 2) % UINT32_MOD : Nat) : Int)
      = (c.pc : Int) + toInt32 w + 2 := by
    unfold toInt32 at hlo hhi ⊢
    unfold UINT32_MOD
    split_ifs at hlo hhi ⊢ <;> omega
  have hpop : ¬ c.sp < 0 →
      pop c = (c.stack.getD c.sp.toNat 0, { c with sp := c.sp - 1 }) := by
    intro hneg
    unfold pop
    rw [if_neg hneg]
  refine ⟨fun hop => ?_, fun hop hsp hv => ?_, fun hop hsp hv => ?_⟩
  · have hdec : decode (c.pmem.getD c.pc 0) c
        = ({ opcode := 18, length := 2, immediate := w }, c) := by
      rw [hop]
      unfold decode
      rw [if_neg (by decide), if_pos (by decide), if_neg (by omega), hw]
      rfl
    have hexec : execInstr cap { opcode := 18, length := 2, immediate := w } c
        = ({ c with pc := (c.pc + w) % UINT32_MOD }, false) := rfl
    have hrun : switchedGo cap 1 c
        = advance { opcode := 18, length := 2, immediate := w }
            { c with pc := (c.pc + w) % UINT32_MOD } := by
      simp only [switchedGo]
      rw [hf1, hf2, hdec]
      simp [hexec, switchedGo, hst]
    rw [hrun]
    simp only [advance]
    exact key
  · have hdec : decode (c.pmem.getD c.pc 0) c
        = ({ opcode := 8, length := 2, immediate := w }, c) := by
      rw [hop]
      unfold decode
      rw [if_neg (by decide), if_pos (by decide), if_neg (by omega), hw]
      rfl
    have harm : execInstr cap { opcode := 8, length := 2, immediate := w } c
        = (if (pop c).2.state ≠ CpuSt.Running then ((pop c).2, true)
           else if (pop c).1 = 0 then
             ({ (pop c).2 with pc := ((pop c).2.pc + w) % UINT32_MOD }, false)
           else ((pop c).2, false)) := rfl
    have hexec : execInstr cap { opcode := 8, length := 2, immediate := w } c
        = ({ c with sp := c.sp - 1, pc := (c.pc + w) % UINT32_MOD }, false) := by
      rw [harm, hpop (by omega)]
      split_ifs with hcond1
      · exact absurd hst hcond1
      · rfl
    have hrun : switchedGo cap 1 c
        = advance { opcode := 8, length := 2, immediate := w }
            { c with sp := c.sp - 1, pc := (c.pc + w) % UINT32_MOD } := by
      simp only [switchedGo]
      rw [hf1, hf2, hdec]
      simp [hexec, switchedGo, hst]
    rw [hrun]
    simp only [advance]
    exact key
  · have hdec : decode (c.pmem.getD c.pc 0) c
        = ({ opcode := 5, length := 2, immediate := w }, c) := by
      rw [hop]
      unfold decode
      rw [if_neg (by decide), if_pos (by decide), if_neg (by omega), hw]
      rfl
    have harm : execInstr cap { opcode := 5, length := 2, immediate := w } c
        = (if (pop c).2.state ≠ CpuSt.Running then ((pop c).2, true)
           else if (pop c).1 ≠ 0 then
             ({ (pop c).2 with pc := ((pop c).2.pc + w) % UINT32_MOD }, false)
           else ((pop c).2, false)) := rfl
    have hexec : execInstr cap { opcode := 5, length := 2, immediate := w } c
        = ({ c with sp := c.sp - 1, pc := (c.pc + w) % UINT32_MOD }, false) := by
      rw [harm, hpop (by omega)]
      split_ifs with hcond1
      · exact absurd hst hcond1
      · rfl
    have hrun : switchedGo cap 1 c
        = advance { opcode := 5, length := 2, immediate := w }
            { c with sp := c.sp - 1, pc := (c.pc + w) % UINT32_MOD } := by
      simp only [switchedGo]
      rw [hf1, hf2, hdec]
      simp [hexec, switchedGo, hst]
    rw [hrun]
    simp only [advance]
    exact key

/-- The concrete machine state used to witness `jump_addressing`. -/
def jumpWitnessCpu : Cpu :=
  { pc := 0, sp := -1, state := CpuSt.Running, steps := 0,
    stack := [], pmem := [18, 1, 0, 0], rands := [], out := [] }

/-- Witness for `jump_addressing` at a concrete input. -/
theorem jump_addressing_witness :
    ((switchedGo 4 1 jumpWitnessCpu).pc : Int) = (0 : Int) + toInt32 1 + 2 :=
  (jump_addressing 4 jumpWitnessCpu 0 1 rfl rfl (by decide) (by decide)
    (by decide) (by decide)).1 (by decide)

/-! ## Claim C5 -/

theorem switchedGo_step (cap f : Nat) (c : Cpu)
    (h1 : c.state = .Running) (hfc : c.pc < c.pmem.length) :
    switchedGo cap (f + 1) c
      = switchedGo cap f
          (advance (decode (c.pmem.getD c.pc 0) c).1
            (execInstr cap (decode (c.pmem.getD c.pc 0) c).1
              (decode (c.pmem.getD c.pc 0) c).2).1) := by
  have hf1 : (fetch_checked c).1 = c.pmem.getD c.pc 0 := by
    unfold fetch_checked
    rw [if_pos hfc]
  have hf2 : (fetch_checked c).2 = c := by
    unfold fetch_checked
    rw [if_pos hfc]
  simp only [switchedGo]
  rw [hf1, hf2, h1]
  simp

/-- Claim C5 is false for the threaded dispatcher: after the one-word
program `Nop` is exhausted, the out-of-bounds decode synthesises a Break
instruction which `threaded.c` dispatches - its Break service routine
runs `ADVANCE_PC()`, so pc and steps each grow by one more than under
the switched dispatcher, which stops before dispatching. -/
theorem threaded_dispatches_after_pc_oob :
    (runThreaded 4 [Instr_Nop] [] 10).steps = 2
    ∧ (runThreaded 4 [Instr_Nop] [] 10).pc = 2
    ∧ (runSwitched 4 [Instr_Nop] [] 10).steps = 1
    ∧ (runSwitched 4 [Instr_Nop] [] 10).pc = 1 := by
  decide

/-- Claim C5 (amended): when decode is reached with
`pc >= PROGRAM_SIZE`, one diagnostic is emitted and the state becomes
Break in both strategies, and no program-memory word is read; under the
switched dispatcher the loop stops without dispatching any handler, with
pc and steps unchanged, while under the threaded dispatcher the
synthesised Break instruction IS dispatched: its handler runs
`ADVANCE_PC()`, leaving `pc + 1` and `steps + 1`. -/
theorem pc_out_of_bounds_behavior (cap limit fuel : Nat) (c : Cpu)
    (hst : c.state = .Running) (hoob : c.pmem.length ≤ c.pc) :
    switchedGo cap (fuel + 1) c
      = { c with state := .Break, out := c.out ++ [.diag "PC out of bounds"] }
    ∧ threadedGo cap limit fuel c
      = { c with state := .Break, pc := (c.pc + 1) % UINT32_MOD,
                 steps := c.steps + 1,
                 out := c.out ++ [.diag "PC out of bounds"] } := by
  have hnl : ¬ c.pc < c.pmem.length := by omega
  have hf2 : (fetch_checked c).2
      = { c with state := .Break,
                 out := c.out ++ [.diag "PC out of bounds"] } := by
    unfold fetch_checked
    rw [if_neg hnl]
  have hf1 : (fetch_checked c).1 = Instr_Break := by
    unfold fetch_checked
    rw [if_neg hnl]
  constructor
  · simp only [switchedGo]
    rw [hf2, hst]
    simp
  · have hit : threadedIter cap limit c
        = ({ c with
              state := CpuSt.Break, pc := (c.pc + 1) % UINT32_MOD,
              steps := c.steps + 1,
              out := c.out ++ [Event.diag "PC out of bounds"] }, true) := by
      unfold threadedIter
      rw [hf1, hf2]
      rfl
    cases fuel with
    | zero =>
      simp only [threadedGo]
      rw [hit]
    | succ f =>
      simp only [threadedGo]
      rw [hit]
      simp

/-- The concrete machine state used to witness
`pc_out_of_bounds_behavior`. -/
def oobWitnessCpu : Cpu :=
  { pc := 3, sp := -1, state := CpuSt.Running, steps := 5,
    stack := [], pmem := [1, 2], rands := [], out := [] }

/-- Witness for `pc_out_of_bounds_behavior` at a concrete input. -/
theorem pc_out_of_bounds_behavior_witness :
    switchedGo 4 1 oobWitnessCpu
      = { pc := 3, sp := -1, state := CpuSt.Break, steps := 5, stack := [],
          pmem := [1, 2], rands := [], out := [Event.diag "PC out of bounds"] }
    ∧ threadedGo 4 9 0 oobWitnessCpu
      = { pc := 4, sp := -1, state := CpuSt.Break, steps := 6, stack := [],
          pmem := [1, 2], rands := [], out := [Event.diag "PC out of bounds"] } := by
  have h := pc_out_of_bounds_behavior 4 9 0 oobWitnessCpu rfl (by decide)
  constructor
  · rw [h.1]
    decide
  · rw [h.2]
    decide

/-! ## Claim C8 -/

/-- Claim C8: every opcode value outside the catalog (0..18) decodes as
a one-word Break with no immediate, and a program whose first word is
such a value terminates - under both dispatch strategies - in
state=Break with exactly 1 executed step (the synthesised Break counts)
and failure exit classification. -/
theorem undefined_opcode_break (cap limit w : Nat) (rest rands : List Nat)
    (hw : 19 ≤ w) (hl : 1 ≤ limit) :
    (∀ c : Cpu,
      decode w c = ({ opcode := Instr_Break, length := 1, immediate := 0 }, c))
    ∧ (runSwitched cap (w :: rest) rands limit).state = .Break
    ∧ (runSwitched cap (w :: rest) rands limit).steps = 1
    ∧ exitCode limit (runSwitched cap (w :: rest) rands limit) = 1
    ∧ (runThreaded cap (w :: rest) rands limit).state = .Break
    ∧ (runThreaded cap (w :: rest) rands limit).steps = 1
    ∧ exitCode limit (runThreaded cap (w :: rest) rands limit) = 1 := by
  obtain ⟨l, rfl⟩ : ∃ l, limit = l + 1 := ⟨limit - 1, by omega⟩
  have hlen1 : opLen1 w = false := by
    unfold opLen1 Instr_Nop Instr_Halt Instr_Print Instr_Swap Instr_Dup
      Instr_Inc Instr_Add Instr_Sub Instr_Mul Instr_Rand Instr_Dec
      Instr_Drop Instr_Over Instr_Mod
    simp only [Bool.or_eq_false_iff, decide_eq_false_iff_not]
    omega
  have hlen2 : opLen2 w = false := by
    unfold opLen2 Instr_Push Instr_JNE Instr_JE Instr_Jump
    simp only [Bool.or_eq_false_iff, decide_eq_false_iff_not]
    omega
  have hdec : ∀ c : Cpu,
      decode w c
        = ({ opcode := Instr_Break, length := 1, immediate := 0 }, c) := by
    intro c
    unfold decode
    rw [if_neg (by simp [hlen1]), if_neg (by simp [hlen2])]
  refine ⟨hdec, ?_⟩
  have hexec : ∀ x : Cpu,
      execInstr cap { opcode := Instr_Break, length := 1, immediate := 0 } x
        = ({ x with state := .Break }, false) := fun x => rfl
  set i := initCpu cap (w :: rest) rands with hi
  have hist : i.state = CpuSt.Running := by
    rw [hi]
    rfl
  have hipc : i.pc < i.pmem.length := by
    rw [hi]
    simp [initCpu]
  have hgetD : i.pmem.getD i.pc 0 = w := by
    rw [hi]
    rfl
  have histeps : i.steps = 0 := by
    rw [hi]
    rfl
  have hbody : advance (decode (i.pmem.getD i.pc 0) i).1
        (execInstr cap (decode (i.pmem.getD i.pc 0) i).1
          (decode (i.pmem.getD i.pc 0) i).2).1
      = advance { opcode := Instr_Break, length := 1, immediate := 0 }
          { i with state := CpuSt.Break } := by
    rw [hgetD]
    simp only [hdec, hexec]
  have hbrk : ({ i with state := CpuSt.Break } : Cpu).state = CpuSt.Break := rfl
  have hfin : ∀ q : Cpu,
      q = advance { opcode := Instr_Break, length := 1, immediate := 0 }
            { i with state := CpuSt.Break } →
      q.state = CpuSt.Break ∧ q.steps = 1 ∧ exitCode (l + 1) q = 1 := by
    intro q hq
    subst hq
    refine ⟨by rw [advance_state], ?_, ?_⟩
    · rw [advance_steps]
      simp [histeps]
    · unfold exitCode
      rw [if_neg (by rw [advance_state]; simp)]
  have hsw : runSwitched cap (w :: rest) rands (l + 1)
      = advance { opcode := Instr_Break, length := 1, immediate := 0 }
          { i with state := CpuSt.Break } := by
    unfold runSwitched
    rw [← hi, switchedGo_step cap l i hist hipc, hbody]
    exact switchedGo_notRunning _ _ _ (by rw [advance_state]; simp)
  have hf1 : (fetch_checked i).1 = w := by
    unfold fetch_checked
    rw [if_pos hipc]
    exact hgetD
  have hf2 : (fetch_checked i).2 = i := by
    unfold fetch_checked
    rw [if_pos hipc]
  have hit : threadedIter cap (l + 1) i
      = (advance { opcode := Instr_Break, length := 1, immediate := 0 }
          { i with state := CpuSt.Break }, true) := by
    unfold threadedIter
    rw [hf1, hf2]
    simp only [hdec, hexec]
    rw [if_neg (by simp), if_pos (by rw [advance_state]; simp)]
  have hthr : runThreaded cap (w :: rest) rands (l + 1)
      = advance { opcode := Instr_Break, length := 1, immediate := 0 }
          { i with state := CpuSt.Break } := by
    unfold runThreaded
    rw [← hi]
    simp only [threadedGo]
    rw [hit]
    simp
  obtain ⟨hq1, hq2, hq3⟩ := hfin _ hsw
  obtain ⟨hr1, hr2, hr3⟩ := hfin _ hthr
  exact ⟨hq1, hq2, hq3, hr1, hr2, hr3⟩

/-- Witness for `undefined_opcode_break` at a concrete input. -/
theorem undefined_opcode_break_witness :
    (runSwitched 4 [37, 9] [] 5).state = CpuSt.Break
    ∧ (runSwitched 4 [37, 9] [] 5).steps = 1
    ∧ exitCode 5 (runSwitched 4 [37, 9] [] 5) = 1
    ∧ (runThreaded 4 [37, 9] [] 5).state = CpuSt.Break
    ∧ (runThreaded 4 [37, 9] [] 5).steps = 1
    ∧ exitCode 5 (runThreaded 4 [37, 9] [] 5) = 1 :=
  (undefined_opcode_break 4 5 37 [9] [] (by decide) (by decide)).2

/-! ## Claim C4 -/

/-- Claim C4 is false as stated: the division-by-zero fault of `Mod`
emits no diagnostic at all - the run `Push 0, Push 10, Mod, Halt` ends
in Break with an empty output - and a two-operand handler on an empty
stack emits two underflow diagnostics, one per failing pop. -/
theorem fault_without_diagnostic :
    (runSwitched 8 [Instr_Push, 0, Instr_Push, 10, Instr_Mod, Instr_Halt]
      [] 100).state = CpuSt.Break
    ∧ diagCount (runSwitched 8 [Instr_Push, 0, Instr_Push, 10, Instr_Mod,
        Instr_Halt] [] 100).out = 0
    ∧ (runSwitched 8 [Instr_Swap, Instr_Halt] [] 100).state = CpuSt.Break
    ∧ diagCount (runSwitched 8 [Instr_Swap, Instr_Halt] [] 100).out = 2 := by
  decide

/-- Claim C4 (amended): the faults detected by `fetch_checked`,
`decode`, `push` and `pop` (ProgramCounterOutOfBounds,
TruncatedInstruction, StackOverflow, StackUnderflow) each emit exactly
one diagnostic line at the point of detection; a divide-by-zero and an
undefined opcode set (or lead to) state=Break without emitting any
diagnostic; and a two-operand handler dispatched on an empty stack
performs two failing pops and therefore emits two underflow
diagnostics.  Every fault still puts the machine in the Break terminal
state. -/
theorem fault_diagnostics (cap : Nat) :
    (∀ c : Cpu, c.pmem.length ≤ c.pc →
      fetch_checked c
        = (Instr_Break,
           { c with state := CpuSt.Break,
                    out := c.out ++ [Event.diag "PC out of bounds"] }))
    ∧ (∀ (c : Cpu) (raw : Nat), opLen2 raw = true → c.pmem.length ≤ c.pc + 1 →
      decode raw c
        = ({ opcode := Instr_Break, length := 1, immediate := 0 },
           { c with out := c.out ++ [Event.diag "PC+1 out of bounds"] }))
    ∧ (∀ (c : Cpu) (v : Nat), (cap : Int) - 1 ≤ c.sp →
      push cap c v
        = { c with state := CpuSt.Break,
                   out := c.out ++ [Event.diag "Stack overflow"] })
    ∧ (∀ c : Cpu, c.sp < 0 →
      pop c
        = (0, { c with state := CpuSt.Break,
                       out := c.out ++ [Event.diag "Stack underflow"] }))
    ∧ (∀ c : Cpu, c.state = CpuSt.Running → 1 ≤ c.sp →
      c.stack.getD (c.sp.toNat - 1) 0 = 0 →
      (execInstr cap ⟨Instr_Mod, 1, 0⟩ c).1
        = { c with sp := c.sp - 2, state := CpuSt.Break })
    ∧ (∀ (c : Cpu) (raw : Nat), opLen1 raw = false → opLen2 raw = false →
      decode raw c
        = ({ opcode := Instr_Break, length := 1, immediate := 0 }, c))
    ∧ (∀ c : Cpu, c.state = CpuSt.Running → c.sp = -1 →
      (execInstr cap ⟨Instr_Swap, 1, 0⟩ c).1
        = { c with state := CpuSt.Break,
                   out := c.out ++ [Event.diag "Stack underflow",
                                    Event.diag "Stack underflow"] }) := by
  refine ⟨?_, ?_, ?_, ?_, ?_, ?_, ?_⟩
  · intro c hc
    unfold fetch_checked
    rw [if_neg (by omega)]
  · intro c raw h2 hc
    have h1 : opLen1 raw = false := by
      unfold opLen2 Instr_Push Instr_JNE Instr_JE Instr_Jump at h2
      simp only [Bool.or_eq_true, decide_eq_true_eq] at h2
      unfold opLen1 Instr_Nop Instr_Halt Instr_Print Instr_Swap Instr_Dup
        Instr_Inc Instr_Add Instr_Sub Instr_Mul Instr_Rand Instr_Dec
        Instr_Drop Instr_Over Instr_Mod
      simp only [Bool.or_eq_false_iff, decide_eq_false_iff_not]
      omega
    unfold decode
    rw [if_neg (by simp [h1]), if_pos h2, if_pos (by omega)]
  · intro c v hc
    unfold push
    rw [if_pos hc]
  · intro c hc
    unfold pop
    rw [if_pos hc]
  · intro c hst hsp hz
    obtain ⟨pc, sp, st, steps, stk, pm, rnd, outl⟩ := c
    simp only at hst hsp hz
    subst hst
    have h1 : ¬ sp < 0 := by omega
    have h2 : ¬ sp - 1 < 0 := by omega
    have h3 : (sp - 1).toNat = sp.toNat - 1 := by omega
    simp only [execInstr, Instr_Mod, pop, h1, if_false, h2]
    simp only [h3, hz]
    simp [Cpu.mk.injEq]
    omega
  · intro c raw h1 h2
    unfold decode
    rw [if_neg (by simp [h1]), if_neg (by simp [h2])]
  · intro c hst hsp
    obtain ⟨pc, sp, st, steps, stk, pm, rnd, outl⟩ := c
    simp only at hst hsp
    subst hst
    subst hsp
    simp only [execInstr, Instr_Swap, pop]
    simp

/-- The empty-stack machine state used to witness `fault_diagnostics`. -/
def emptyStackCpu : Cpu :=
  { pc := 0, sp := -1, state := CpuSt.Running, steps := 0,
    stack := [0, 0, 0, 0], pmem := [], rands := [], out := [] }

/-- A machine state whose second-popped `Mod` operand is zero, used to
witness `fault_diagnostics`. -/
def zeroDivisorCpu : Cpu :=
  { pc := 0, sp := 1, state := CpuSt.Running, steps := 0,
    stack := [0, 9, 0, 0], pmem := [], rands := [], out := [] }

/-- Witness for `fault_diagnostics` at concrete inputs: one underflow
diagnostic per failing pop, no diagnostic for a zero divisor, two
diagnostics for `Swap` on an empty stack. -/
theorem fault_diagnostics_witness :
    (pop emptyStackCpu).2.state = CpuSt.Break
    ∧ diagCount (pop emptyStackCpu).2.out = 1
    ∧ (execInstr 4 ⟨Instr_Mod, 1, 0⟩ zeroDivisorCpu).1.state = CpuSt.Break
    ∧ diagCount (execInstr 4 ⟨Instr_Mod, 1, 0⟩ zeroDivisorCpu).1.out = 0
    ∧ (execInstr 4 ⟨Instr_Swap, 1, 0⟩ emptyStackCpu).1.out
        = [Event.diag "Stack underflow", Event.diag "Stack underflow"] := by
  have h := fault_diagnostics 4
  have h4 := h.2.2.2.1 emptyStackCpu (by decide)
  have h5 := h.2.2.2.2.1 zeroDivisorCpu rfl (by decide) (by decide)
  have h7 := h.2.2.2.2.2.2 emptyStackCpu rfl (by decide)
  refine ⟨?_, ?_, ?_, ?_, ?_⟩
  · rw [h4]
  · rw [h4]
    decide
  · rw [h5]
  · rw [h5]
    decide
  · rw [h7]
    decide

/-! ## Claim C7 -/

/-- Claim C7: the stack discipline invariant.  The initial state
satisfies `-1 <= sp < STACK_CAPACITY`, both dispatch loops preserve it
from any state (so it holds in every reachable state), a push attempted
at `sp = STACK_CAPACITY - 1` sets Break and changes neither `sp` nor
the stack array, and a pop attempted at `sp = -1` sets Break, returns
the sentinel 0 and changes neither `sp` nor the stack array. -/
theorem stack_discipline (cap : Nat) (prog rands : List Nat) :
    StackOk cap (initCpu cap prog rands)
    ∧ (∀ fuel c, StackOk cap c → StackOk cap (switchedGo cap fuel c))
    ∧ (∀ limit fuel c, StackOk cap c → StackOk cap (threadedGo cap limit fuel c))
    ∧ (∀ (c : Cpu) (v : Nat), c.sp = (cap : Int) - 1 →
        push cap c v
          = { c with
               state := CpuSt.Break,
               out := c.out ++ [Event.diag "Stack overflow"] })
    ∧ (∀ c : Cpu, c.sp = -1 →
        pop c
          = (0, { c with
                   state := CpuSt.Break,
                   out := c.out ++ [Event.diag "Stack underflow"] })) := by
  refine ⟨?_, ?_, ?_, ?_, ?_⟩
  · unfold initCpu StackOk
    simp
    omega
  · intro fuel c h
    exact switchedGo_stackOk cap fuel c h
  · intro limit fuel c h
    exact threadedGo_stackOk cap limit fuel c h
  · intro c v hsp
    unfold push
    rw [if_pos (by omega)]
  · intro c hsp
    unfold pop
    rw [if_pos (by omega)]

/-- The machine state with an empty stack used to witness
`stack_discipline`. -/
def underflowWitnessCpu : Cpu :=
  { pc := 7, sp := -1, state := CpuSt.Running, steps := 2,
    stack := [5, 6], pmem := [4], rands := [], out := [] }

/-- Witness for `stack_discipline` at concrete inputs. -/
theorem stack_discipline_witness :
    StackOk 4 (switchedGo 4 3 (initCpu 4 [Instr_Halt] []))
    ∧ (pop underflowWitnessCpu).2.state = CpuSt.Break
    ∧ (pop underflowWitnessCpu).2.sp = -1
    ∧ (pop underflowWitnessCpu).2.stack = [5, 6]
    ∧ (pop underflowWitnessCpu).1 = 0 := by
  have h := stack_discipline 4 [Instr_Halt] []
  have hp := h.2.2.2.2 underflowWitnessCpu (by decide)
  refine ⟨h.2.1 3 _ h.1, ?_, ?_, ?_, ?_⟩
  · rw [hp]
  · rw [hp]
    decide
  · rw [hp]
    decide
  · rw [hp]
